import Mathlib

/-!
# Verification of the fintech-dashboard mock service core

Shallow embedding of the repository's core logic:

* `ApiService` (file `src/unnamed/part_003`): rate limiter, account ledger,
  transfer engine, transaction log with pagination, invoice generator.
* `AuthContext` (file `src/src/contexts/AuthContext.tsx`): login, session
  store round-trip, `checkToken`.

Modelling conventions:

* JavaScript numbers holding money are modelled as exact rationals `ℚ`;
  the source's `parseFloat(x.toFixed(2))` (round to 2 decimal places) is
  modelled as `round2`, rounding to the nearest multiple of `1/100`
  (ties rounded up, matching Mathlib's `round`).
* `Date.now()` timestamps are natural numbers (milliseconds); each service
  call receives the current time `now` as an explicit argument.
* JavaScript `throw new Error(...)` is modelled as `Except.error` with an
  inductive error type, one constructor per distinct throw site.
* Mutable singleton state (`mockAccounts`, `mockTransactions`, the rate
  limiter fields of `ApiService`) is threaded explicitly as `ApiState`.
* `Math.random()`-derived quantities in the invoice generator are passed
  in as explicit arguments, reduced into the ranges the source produces.
* `localStorage` (the Session Store) is modelled as a typed `Store` record
  holding the two keys `fintech_token` / `fintech_user`; JSON
  serialization of the flat `User` record is modelled as exact
  (`JSON.parse(JSON.stringify u) = u` holds for these records).
-/

namespace Fintech

/-- `parseFloat(x.toFixed(2))`: round to the nearest multiple of 1/100. -/
def round2 (q : ℚ) : ℚ := ((round (100 * q) : ℤ) : ℚ) / 100

/-- `Transaction.type` field: `"debit" | "credit"`. -/
inductive TxType where
  | debit
  | credit
deriving DecidableEq, Repr

/-- `Transaction.status` field: `"pending" | "completed" | "failed"`. -/
inductive TxStatus where
  | pending
  | completed
  | failed
deriving DecidableEq, Repr

/-- `interface Transaction` from the mock service module. -/
structure Transaction where
  id : String
  date : ℕ
  type : TxType
  amount : ℚ
  description : String
  status : TxStatus
  category : String
deriving DecidableEq, Repr

/-- `interface Account` from the mock service module. -/
structure Account where
  id : String
  name : String
  balance : ℚ
  currency : String
  accountNumber : String
  routingNumber : String
deriving DecidableEq, Repr

/-- The seeded checking account (`acc-1`, balance 5245.75). -/
def checkingAccount : Account :=
  { id := "acc-1", name := "Checking Account", balance := 524575 / 100,
    currency := "USD", accountNumber := "9374846271", routingNumber := "072403952" }

/-- The seeded savings account (`acc-2`, balance 12735.40). -/
def savingsAccount : Account :=
  { id := "acc-2", name := "Savings Account", balance := 1273540 / 100,
    currency := "USD", accountNumber := "8362719405", routingNumber := "072403952" }

/-- The seeded `mockAccounts` array. -/
def mockAccounts : List Account := [checkingAccount, savingsAccount]

/-- `mockAccounts.find(acc => acc.id === accountId)`: first account with the
given id. -/
def findAccount (accs : List Account) (accountId : String) : Option Account :=
  accs.find? (fun acc => acc.id == accountId)

/-- In-place mutation `account.balance = b` of the object returned by
`find`: replaces the balance of the FIRST account with the given id
(later duplicates, if any, are untouched, as in the JavaScript aliasing
semantics). -/
def setBalanceFirst : List Account → String → ℚ → List Account
  | [], _, _ => []
  | acc :: rest, accountId, b =>
      if acc.id == accountId then { acc with balance := b } :: rest
      else acc :: setBalanceFirst rest accountId b

/-- Errors thrown by `ApiService` methods, one per throw site. -/
inductive ApiError where
  | RateLimited         -- "Rate limit exceeded"
  | NotFound            -- "One or both accounts not found"
  | InsufficientFunds   -- "Insufficient funds"
deriving DecidableEq, Repr

/-- The rate-limiter fields of `ApiService`:
`requestCount`, `lastRequestTime`, `rateLimitReset`. -/
structure RateState where
  requestCount : ℕ
  lastRequestTime : ℕ
  rateLimitReset : ℕ
deriving DecidableEq, Repr

/-- `private checkRateLimit(): boolean`, with `Date.now()` passed as `now`.
Resets the counter when more than 60000 ms have passed since the previous
request, then counts the current call; admits it iff the count stays ≤ 10. -/
def rlStep (s : RateState) (now : ℕ) : Bool × RateState :=
  let s1 := if 60000 < now - s.lastRequestTime then
      { s with requestCount := 0, rateLimitReset := now + 60000 }
    else s
  let s2 := { s1 with requestCount := s1.requestCount + 1, lastRequestTime := now }
  (decide (s2.requestCount ≤ 10), s2)

/-- Admission flags of a sequence of rate-limited service calls at the
given times (every `ApiService` method calls `checkRateLimit` first, and
only these limiter fields feed back into admission decisions). -/
def rlRun : RateState → List ℕ → List Bool
  | _, [] => []
  | s, now :: ts =>
      let (ok, s1) := rlStep s now
      ok :: rlRun s1 ts

/-- The whole mutable state of the mock service module: the limiter fields
of the `ApiService` singleton plus the module-level `mockAccounts` and
`mockTransactions` arrays. -/
structure ApiState where
  rate : RateState
  accounts : List Account
  transactions : List Transaction
deriving DecidableEq, Repr

/-- `checkRateLimit` acting on the whole service state. -/
def checkRateLimit (s : ApiState) (now : ℕ) : Bool × ApiState :=
  ((rlStep s.rate now).1, { s with rate := (rlStep s.rate now).2 })

/-- The service state at process start.  The seeded transaction log
(`generateTransactions(50)`) is `Math.random()`-generated; its content is
irrelevant to every claim, so the initial log is modelled as empty. -/
def initialState : ApiState :=
  { rate := { requestCount := 0, lastRequestTime := 0, rateLimitReset := 0 },
    accounts := mockAccounts,
    transactions := [] }

/-- `async getBalance()`: returns a snapshot copy of the accounts. -/
def getBalance (s : ApiState) (now : ℕ) : Except ApiError (List Account) × ApiState :=
  let s1 := (checkRateLimit s now).2
  if (checkRateLimit s now).1 then (.ok s1.accounts, s1)
  else (.error .RateLimited, s1)

/-- `async getTransactions(page = 1, pageSize = 10)`: offset/limit slice
`mockTransactions.slice((page-1)*pageSize, (page-1)*pageSize + pageSize)`
plus the total log length. -/
def getTransactions (s : ApiState) (now : ℕ) (page pageSize : ℕ) :
    Except ApiError (List Transaction × ℕ) × ApiState :=
  let s1 := (checkRateLimit s now).2
  if (checkRateLimit s now).1 then
    let start := (page - 1) * pageSize
    let paginatedData := (s1.transactions.drop start).take pageSize
    (.ok (paginatedData, s1.transactions.length), s1)
  else (.error .RateLimited, s1)

/-- The two balance mutations of a successful transfer, in source order:
debit the first account with id `fromAccountId`, then credit the first
account with id `toAccountId`, re-reading its balance after the debit
(this preserves the JavaScript aliasing when both ids name the same
account object).  `toAccount` is the object found before the debit, whose
balance is only read through the re-lookup. -/
def applyTransfer (accs : List Account) (fromAccount toAccount : Account)
    (fromAccountId toAccountId : String) (amount : ℚ) : List Account :=
  let accs1 := setBalanceFirst accs fromAccountId (round2 (fromAccount.balance - amount))
  let toBalance := match findAccount accs1 toAccountId with
    | some a => a.balance
    | none => toAccount.balance
  setBalanceFirst accs1 toAccountId (round2 (toBalance + amount))

/-- The debit leg unshifted onto the log by a successful transfer. -/
def debitRecord (now : ℕ) (toAccount : Account) (amount : ℚ) : Transaction :=
  { id := "tx-" ++ toString now ++ "-debit", date := now, type := .debit,
    amount := amount, description := "Transfer to " ++ toAccount.name,
    status := .completed, category := "Transfer" }

/-- The credit leg unshifted onto the log by a successful transfer. -/
def creditRecord (now : ℕ) (fromAccount : Account) (amount : ℚ) : Transaction :=
  { id := "tx-" ++ toString now ++ "-credit", date := now, type := .credit,
    amount := amount, description := "Transfer from " ++ fromAccount.name,
    status := .completed, category := "Transfer" }

/-- `async transferFunds(fromAccountId, toAccountId, amount)`.
Checks the rate limit, looks both accounts up, rejects when
`fromAccount.balance < amount`, otherwise debits and credits with
2-decimal rounding and unshifts a debit and then a credit record onto the
log (so the credit leg ends up at the head). -/
def transferFunds (s : ApiState) (now : ℕ) (fromAccountId toAccountId : String)
    (amount : ℚ) : Except ApiError String × ApiState :=
  let s1 := (checkRateLimit s now).2
  if (checkRateLimit s now).1 then
    match findAccount s1.accounts fromAccountId, findAccount s1.accounts toAccountId with
    | some fromAccount, some toAccount =>
        if fromAccount.balance < amount then (.error .InsufficientFunds, s1)
        else
          (.ok ("Successfully transferred from " ++ fromAccount.name
                  ++ " to " ++ toAccount.name),
           { s1 with
               accounts := applyTransfer s1.accounts fromAccount toAccount
                 fromAccountId toAccountId amount,
               transactions := creditRecord now fromAccount amount
                 :: debitRecord now toAccount amount :: s1.transactions })
    | _, _ => (.error .NotFound, s1)
  else (.error .RateLimited, s1)

/-- `InvoiceData.items` entry. -/
structure InvoiceItem where
  description : String
  quantity : ℕ
  unitPrice : ℚ
  amount : ℚ
deriving DecidableEq, Repr

/-- `InvoiceData.status` field. -/
inductive InvoiceStatus where
  | paid
  | pending
  | overdue
deriving DecidableEq, Repr

/-- `interface InvoiceData`. -/
structure InvoiceData where
  id : String
  date : ℕ
  dueDate : ℕ
  items : List InvoiceItem
  total : ℚ
  status : InvoiceStatus
deriving DecidableEq, Repr

/-- The module-level `generateInvoice(startDate, endDate)`.  The two date
arguments are taken but never read.  The three `Math.random()` draws are
passed as `r1 r3 r4` and reduced into the ranges the source produces
(`floor(random*500)+100`, `floor(random*20)+5`, `floor(random*5)`).
Item amounts are `quantity * unitPrice` rounded to 2 decimals; the total
sums the amounts; the due date is 15 days (in ms) after `now`. -/
def generateInvoice (startDate endDate : String) (now : ℕ) (r1 r3 r4 : ℕ) : InvoiceData :=
  let _ := startDate
  let _ := endDate
  let q1 := r1 % 500 + 100
  let q3 := r3 % 20 + 5
  let q4 := r4 % 5
  let items : List InvoiceItem :=
    [ { description := "API Calls - Basic Tier", quantity := q1, unitPrice := 1 / 100,
        amount := round2 ((q1 : ℚ) * (1 / 100)) },
      { description := "Premium Features Access", quantity := 1, unitPrice := 2999 / 100,
        amount := round2 ((1 : ℚ) * (2999 / 100)) },
      { description := "Data Storage (GB)", quantity := q3, unitPrice := 1 / 2,
        amount := round2 ((q3 : ℚ) * (1 / 2)) },
      { description := "Support Requests", quantity := q4, unitPrice := 15,
        amount := round2 ((q4 : ℚ) * 15) } ]
  { id := "inv-" ++ toString now,
    date := now,
    dueDate := now + 15 * 24 * 60 * 60 * 1000,
    items := items,
    total := (items.map (fun it => it.amount)).sum,
    status := .pending }

/-- `async generateInvoice(startDate, endDate)` on `ApiService`: checks
the rate limit and defers to the module-level generator.  No date-range
validation happens anywhere in the method. -/
def apiGenerateInvoice (s : ApiState) (now : ℕ) (startDate endDate : String)
    (r1 r3 r4 : ℕ) : Except ApiError InvoiceData × ApiState :=
  let s1 := (checkRateLimit s now).2
  if (checkRateLimit s now).1 then
    (.ok (generateInvoice startDate endDate now r1 r3 r4), s1)
  else (.error .RateLimited, s1)

/-- Sum of all ledger balances. -/
def totalBalance (accs : List Account) : ℚ :=
  (accs.map (fun acc => acc.balance)).sum

/-- The spec's reading of the rate window (`RateWindow` in the spec's §3,
reset rule of §4.1): `{requestCount, windowStartTime}`, reset to a new
window when more than 60s have elapsed since the WINDOW'S LAST RESET (not
since the previous request).  Declared only to be compared with the
source's `rlStep`, which measures from `lastRequestTime` instead. -/
structure SpecRateState where
  requestCount : ℕ
  windowStartTime : ℕ
deriving DecidableEq, Repr

/-- One admission decision of the spec's window rule. -/
def specRlStep (s : SpecRateState) (now : ℕ) : Bool × SpecRateState :=
  let s1 := if 60000 < now - s.windowStartTime then
      { requestCount := 0, windowStartTime := now }
    else s
  let s2 := { s1 with requestCount := s1.requestCount + 1 }
  (decide (s2.requestCount ≤ 10), s2)

/-- Admission flags of a call sequence under the spec's window rule. -/
def specRlRun : SpecRateState → List ℕ → List Bool
  | _, [] => []
  | s, now :: ts =>
      let (ok, s1) := specRlStep s now
      ok :: specRlRun s1 ts

/-- Fold a list of `(now, fromId, toId, amount)` transfer calls through the
service state, keeping only the state (results discarded). -/
def runTransfers (s : ApiState) : List (ℕ × String × String × ℚ) → ApiState
  | [] => s
  | c :: cs => runTransfers (transferFunds s c.1 c.2.1 c.2.2.1 c.2.2.2).2 cs

/-! ## AuthContext (`src/src/contexts/AuthContext.tsx`) -/

/-- `User.role` field: `"user" | "admin"`. -/
inductive Role where
  | user
  | admin
deriving DecidableEq, Repr

/-- `User.subscriptionTier` field: `"basic" | "pro" | "enterprise"`. -/
inductive Tier where
  | basic
  | pro
  | enterprise
deriving DecidableEq, Repr

/-- The `User` record of the auth context (password already stripped). -/
structure User where
  id : String
  email : String
  name : String
  role : Role
  isSubscribed : Bool
  subscriptionTier : Option Tier
  subscriptionExpiresAt : Option String
deriving DecidableEq, Repr

/-- An entry of `MOCK_USERS`: a `User` plus the mock password. -/
structure MockUser where
  id : String
  email : String
  name : String
  password : String
  role : Role
  isSubscribed : Bool
  subscriptionTier : Option Tier
  subscriptionExpiresAt : Option String
deriving DecidableEq, Repr

/-- `const { password: _, ...userWithoutPassword } = foundUser`. -/
def MockUser.toUser (m : MockUser) : User :=
  { id := m.id, email := m.email, name := m.name, role := m.role,
    isSubscribed := m.isSubscribed, subscriptionTier := m.subscriptionTier,
    subscriptionExpiresAt := m.subscriptionExpiresAt }

/-- The fixed `MOCK_USERS` credential set. -/
def MOCK_USERS : List MockUser :=
  [ { id := "user-1", email := "demo@example.com", name := "Demo User",
      password := "password", role := .user, isSubscribed := false,
      subscriptionTier := none, subscriptionExpiresAt := none },
    { id := "admin-1", email := "admin@example.com", name := "Admin User",
      password := "password", role := .admin, isSubscribed := true,
      subscriptionTier := some .enterprise,
      subscriptionExpiresAt := some "2025-12-31T23:59:59Z" } ]

/-- `Role` rendered as in the mock JWT payload. -/
def Role.toStr : Role → String
  | .user => "user"
  | .admin => "admin"

/-- `btoa(JSON.stringify({id, email, role}))`: the opaque mock token.
The base64 step is modelled as the identity on the payload text (it is
injective and never decoded by the program). -/
def mkToken (m : MockUser) : String :=
  "\x7bid:" ++ m.id ++ ",email:" ++ m.email ++ ",role:" ++ m.role.toStr ++ "\x7d"

/-- The Session Store: the two `localStorage` keys `fintech_token` and
`fintech_user`.  The JSON-serialized user is held as a typed `User`
(serialization round-trip modelled as exact for these flat records). -/
structure Store where
  token : Option String
  user : Option User
deriving DecidableEq, Repr

/-- `login` failure: `throw new Error("Invalid credentials")`. -/
inductive AuthError where
  | InvalidCredentials
deriving DecidableEq, Repr

/-- The `login(email, password)` function: looks the credentials up in
`MOCK_USERS`; on a match it writes the mock token and the serialized
password-stripped user to the Session Store and sets the current user (the
returned `User`); otherwise it fails with `InvalidCredentials` and the
store is untouched. -/
def login (st : Store) (email password : String) : Except AuthError (User × Store) :=
  let _ := st
  match MOCK_USERS.find? (fun u => u.email == email && u.password == password) with
  | some foundUser =>
      let userWithoutPassword := foundUser.toUser
      .ok (userWithoutPassword,
           { token := some (mkToken foundUser), user := some userWithoutPassword })
  | none => .error .InvalidCredentials

/-- `checkAuth` run at process start: if a token is stored and a user is
stored, the parsed stored user becomes the current user; otherwise the
current user stays `null`. -/
def checkAuth (st : Store) : Option User :=
  match st.token with
  | some _ => st.user
  | none => none

/-- `checkToken(): boolean` — presence of the stored token. -/
def checkToken (st : Store) : Bool :=
  st.token.isSome

/-- Whether a rational is a whole number of cents (an integer multiple of
1/100), the domain on which 2-decimal rounding is the identity. -/
def IsCents (q : ℚ) : Prop := ∃ n : ℤ, q = n / 100

/-! ## General lemmas about the embedded service -/

theorem checkRateLimit_accounts (s : ApiState) (now : ℕ) :
    ((checkRateLimit s now).2).accounts = s.accounts := rfl

theorem checkRateLimit_transactions (s : ApiState) (now : ℕ) :
    ((checkRateLimit s now).2).transactions = s.transactions := rfl

theorem transferFunds_of_rejected (s : ApiState) (now : ℕ) (f t : String) (a : ℚ)
    (h : (checkRateLimit s now).1 = false) :
    transferFunds s now f t a = (.error .RateLimited, (checkRateLimit s now).2) := by
  simp only [transferFunds, h, Bool.false_eq_true, if_false]

theorem transferFunds_of_notFound (s : ApiState) (now : ℕ) (f t : String) (a : ℚ)
    (h : (checkRateLimit s now).1 = true)
    (hnf : findAccount s.accounts f = none ∨ findAccount s.accounts t = none) :
    transferFunds s now f t a = (.error .NotFound, (checkRateLimit s now).2) := by
  simp only [transferFunds, h, if_true, checkRateLimit_accounts]
  rcases hnf with h1 | h1
  · rw [h1]
  · rw [h1]
    cases findAccount s.accounts f <;> rfl

theorem transferFunds_of_insufficient (s : ApiState) (now : ℕ) (f t : String) (a : ℚ)
    (fa ta : Account) (h : (checkRateLimit s now).1 = true)
    (hf : findAccount s.accounts f = some fa) (ht : findAccount s.accounts t = some ta)
    (hlt : fa.balance < a) :
    transferFunds s now f t a = (.error .InsufficientFunds, (checkRateLimit s now).2) := by
  simp only [transferFunds, h, if_true, checkRateLimit_accounts]
  rw [hf, ht]
  simp only [hlt, if_true]

theorem transferFunds_of_success (s : ApiState) (now : ℕ) (f t : String) (a : ℚ)
    (fa ta : Account) (h : (checkRateLimit s now).1 = true)
    (hf : findAccount s.accounts f = some fa) (ht : findAccount s.accounts t = some ta)
    (hge : ¬ fa.balance < a) :
    transferFunds s now f t a =
      (.ok ("Successfully transferred from " ++ fa.name ++ " to " ++ ta.name),
       { rate := ((checkRateLimit s now).2).rate,
         accounts := applyTransfer s.accounts fa ta f t a,
         transactions := creditRecord now fa a :: debitRecord now ta a :: s.transactions }) := by
  simp only [transferFunds, h, if_true, checkRateLimit_accounts]
  rw [hf, ht]
  simp only [hge, if_false, checkRateLimit_transactions]

theorem findAccount_mem {accs : List Account} {accountId : String} {fa : Account}
    (h : findAccount accs accountId = some fa) : fa ∈ accs :=
  List.mem_of_find?_eq_some h

theorem findAccount_id {accs : List Account} {accountId : String} {fa : Account}
    (h : findAccount accs accountId = some fa) : fa.id = accountId := by
  have := List.find?_some h
  simpa using this

theorem totalBalance_nil : totalBalance [] = 0 := rfl

theorem totalBalance_cons (acc : Account) (rest : List Account) :
    totalBalance (acc :: rest) = acc.balance + totalBalance rest := by
  simp [totalBalance]

theorem totalBalance_setBalanceFirst (accs : List Account) (accountId : String)
    (b : ℚ) (fa : Account) (h : findAccount accs accountId = some fa) :
    totalBalance (setBalanceFirst accs accountId b)
      = totalBalance accs - fa.balance + b := by
  induction accs with
  | nil => simp [findAccount] at h
  | cons acc rest ih =>
      by_cases hid : (acc.id == accountId) = true
      · have hfa : fa = acc := by
          rw [findAccount, List.find?_cons_of_pos (p := fun (x : Account) => x.id == accountId) _ hid] at h
          exact (Option.some_injective _ h).symm
        subst hfa
        simp only [setBalanceFirst, hid, if_true, totalBalance_cons]
        ring
      · have h' : findAccount rest accountId = some fa := by
          rwa [findAccount,
            List.find?_cons_of_neg (p := fun (x : Account) => x.id == accountId) _ (by simpa using hid)] at h
        simp only [setBalanceFirst, hid, Bool.false_eq_true, if_false, totalBalance_cons,
          ih h']
        ring

theorem findAccount_setBalanceFirst_self (accs : List Account) (accountId : String)
    (b : ℚ) (fa : Account) (h : findAccount accs accountId = some fa) :
    findAccount (setBalanceFirst accs accountId b) accountId
      = some { fa with balance := b } := by
  induction accs with
  | nil => simp [findAccount] at h
  | cons acc rest ih =>
      by_cases hid : (acc.id == accountId) = true
      · have hfa : fa = acc := by
          rw [findAccount, List.find?_cons_of_pos (p := fun (x : Account) => x.id == accountId) _ hid] at h
          exact (Option.some_injective _ h).symm
        subst hfa
        simp only [setBalanceFirst, hid, if_true, findAccount]
        rw [List.find?_cons_of_pos (p := fun (x : Account) => x.id == accountId) _ (by simpa using hid)]
      · have h' : findAccount rest accountId = some fa := by
          rwa [findAccount,
            List.find?_cons_of_neg (p := fun (x : Account) => x.id == accountId) _ (by simpa using hid)] at h
        simp only [setBalanceFirst, hid, Bool.false_eq_true, if_false, findAccount]
        rw [List.find?_cons_of_neg (p := fun (x : Account) => x.id == accountId) _ (by simpa using hid)]
        exact ih h'

theorem findAccount_setBalanceFirst_ne (accs : List Account)
    (accountId otherId : String) (b : ℚ) (hne : accountId ≠ otherId) :
    findAccount (setBalanceFirst accs accountId b) otherId
      = findAccount accs otherId := by
  induction accs with
  | nil => rfl
  | cons acc rest ih =>
      by_cases hid : (acc.id == accountId) = true
      · have hacc : acc.id = accountId := by simpa using hid
        have hno : ¬ (acc.id == otherId) = true := by
          simp [hacc, hne]
        simp only [setBalanceFirst, hid, if_true, findAccount]
        rw [List.find?_cons_of_neg (p := fun (x : Account) => x.id == otherId) _ (by simpa using hno),
          List.find?_cons_of_neg (p := fun (x : Account) => x.id == otherId) _ (by simpa using hno)]
      · simp only [setBalanceFirst, hid, Bool.false_eq_true, if_false, findAccount]
        by_cases hother : (acc.id == otherId) = true
        · rw [List.find?_cons_of_pos (p := fun (x : Account) => x.id == otherId) _ hother,
            List.find?_cons_of_pos (p := fun (x : Account) => x.id == otherId) _ hother]
        · rw [List.find?_cons_of_neg (p := fun (x : Account) => x.id == otherId) _ (by simpa using hother),
            List.find?_cons_of_neg (p := fun (x : Account) => x.id == otherId) _ (by simpa using hother)]
          exact ih

theorem mem_setBalanceFirst {x : Account} {accs : List Account}
    {accountId : String} {b : ℚ} (hx : x ∈ setBalanceFirst accs accountId b) :
    x ∈ accs ∨ ∃ y ∈ accs, x = { y with balance := b } := by
  induction accs with
  | nil => simp [setBalanceFirst] at hx
  | cons acc rest ih =>
      by_cases hid : (acc.id == accountId) = true
      · simp only [setBalanceFirst, hid, if_true, List.mem_cons] at hx
        rcases hx with hx | hx
        · exact .inr ⟨acc, List.mem_cons_self .., hx⟩
        · exact .inl (List.mem_cons_of_mem _ hx)
      · simp only [setBalanceFirst, hid, Bool.false_eq_true, if_false,
          List.mem_cons] at hx
        rcases hx with hx | hx
        · exact .inl (hx ▸ List.mem_cons_self ..)
        · rcases ih hx with hy | ⟨y, hy, hxy⟩
          · exact .inl (List.mem_cons_of_mem _ hy)
          · exact .inr ⟨y, List.mem_cons_of_mem _ hy, hxy⟩

theorem IsCents.round2_eq {q : ℚ} (h : IsCents q) : round2 q = q := by
  obtain ⟨n, rfl⟩ := h
  have h100 : (100 : ℚ) * ((n : ℚ) / 100) = (n : ℚ) := by field_simp
  rw [round2, h100, round_intCast]

theorem IsCents.add {q r : ℚ} (hq : IsCents q) (hr : IsCents r) : IsCents (q + r) := by
  obtain ⟨n, rfl⟩ := hq
  obtain ⟨m, rfl⟩ := hr
  exact ⟨n + m, by push_cast; ring⟩

theorem IsCents.sub {q r : ℚ} (hq : IsCents q) (hr : IsCents r) : IsCents (q - r) := by
  obtain ⟨n, rfl⟩ := hq
  obtain ⟨m, rfl⟩ := hr
  exact ⟨n - m, by push_cast; ring⟩

theorem round2_nonneg {q : ℚ} (h : 0 ≤ q) : 0 ≤ round2 q := by
  rw [round2, round_eq]
  have hfloor : (0 : ℤ) ≤ ⌊100 * q + 1 / 2⌋ := by
    rw [Int.le_floor]
    push_cast
    nlinarith
  positivity

/-! ## Rate limiter: call sequences -/

/-- Every consecutive gap (starting from time `prev`) is at most `bound` ms. -/
def gapsLE (bound : ℕ) : ℕ → List ℕ → Bool
  | _, [] => true
  | prev, t :: ts => decide (t - prev ≤ bound) && gapsLE bound t ts

/-- Every consecutive gap (starting from time `prev`) is less than `bound` ms. -/
def gapsLT (bound : ℕ) : ℕ → List ℕ → Bool
  | _, [] => true
  | prev, t :: ts => decide (t - prev < bound) && gapsLT bound t ts

theorem rlRun_cons (s : RateState) (now : ℕ) (ts : List ℕ) :
    rlRun s (now :: ts) = (rlStep s now).1 :: rlRun (rlStep s now).2 ts := rfl

theorem rlStep_of_no_reset (s : RateState) (now : ℕ)
    (h : ¬ 60000 < now - s.lastRequestTime) :
    rlStep s now = (decide (s.requestCount + 1 ≤ 10),
      { requestCount := s.requestCount + 1, lastRequestTime := now,
        rateLimitReset := s.rateLimitReset }) := by
  simp only [rlStep, h, if_false]

theorem rlStep_of_reset (s : RateState) (now : ℕ)
    (h : 60000 < now - s.lastRequestTime) :
    rlStep s now = (true,
      { requestCount := 1, lastRequestTime := now,
        rateLimitReset := now + 60000 }) := by
  simp only [rlStep, h, if_true]
  rfl

/-- Within a window (no gap exceeds 60 s, so the counter never resets), the
flags of a run starting with counter value `c` are
`decide (c + k + 1 ≤ 10)` for the k-th call. -/
theorem rlRun_of_gapsLE (c prev r : ℕ) (ts : List ℕ)
    (h : gapsLE 60000 prev ts = true) :
    rlRun ⟨c, prev, r⟩ ts
      = (List.range ts.length).map (fun k => decide (c + k + 1 ≤ 10)) := by
  induction ts generalizing c prev r with
  | nil => rfl
  | cons t ts ih =>
      rw [gapsLE, Bool.and_eq_true, decide_eq_true_eq] at h
      obtain ⟨h1, h2⟩ := h
      rw [rlRun_cons, rlStep_of_no_reset _ _ (show ¬ 60000 < t - prev by omega)]
      rw [ih (c + 1) t r h2]
      simp only [List.length_cons, List.range_succ_eq_map, List.map_cons, List.map_map]
      congr 1
      apply List.map_congr_left
      intro k hk
      simp only [Function.comp_apply, decide_eq_decide]
      omega

/-- Once the counter is past the limit, a run whose gaps stay under 60 s
(started at the limiter's `lastRequestTime`) is rejected throughout. -/
theorem rlRun_all_false (ts : List ℕ) (s : RateState)
    (hcount : 10 < s.requestCount)
    (hgaps : gapsLT 60000 s.lastRequestTime ts = true) :
    ∀ m < ts.length, (rlRun s ts)[m]? = some false := by
  induction ts generalizing s with
  | nil => intro m hm; simp at hm
  | cons t ts ih =>
      rw [gapsLT, Bool.and_eq_true, decide_eq_true_eq] at hgaps
      obtain ⟨h1, h2⟩ := hgaps
      rw [rlRun_cons, rlStep_of_no_reset _ _ (by omega)]
      intro m hm
      match m with
      | 0 =>
          simp only [List.getElem?_cons_zero, Option.some_inj, decide_eq_false_iff_not]
          omega
      | m + 1 =>
          simp only [List.getElem?_cons_succ]
          exact ih _ (by simpa using hcount.trans (by omega)) h2 m (by simpa using hm)

/-! ## Conservation of the ledger total -/

theorem applyTransfer_eq {accs : List Account} {fa ta x : Account} {f t : String}
    {a : ℚ}
    (hx : findAccount (setBalanceFirst accs f (round2 (fa.balance - a))) t = some x) :
    applyTransfer accs fa ta f t a
      = setBalanceFirst (setBalanceFirst accs f (round2 (fa.balance - a))) t
          (round2 (x.balance + a)) := by
  simp only [applyTransfer, hx]

theorem totalBalance_applyTransfer (accs : List Account) (fa ta : Account)
    (f t : String) (a : ℚ)
    (hf : findAccount accs f = some fa) (ht : findAccount accs t = some ta)
    (hc : ∀ acc ∈ accs, IsCents acc.balance) (ha : IsCents a) :
    totalBalance (applyTransfer accs fa ta f t a) = totalBalance accs := by
  have hfa_c : IsCents fa.balance := hc fa (findAccount_mem hf)
  have hta_c : IsCents ta.balance := hc ta (findAccount_mem ht)
  have hsub : round2 (fa.balance - a) = fa.balance - a := (hfa_c.sub ha).round2_eq
  by_cases hft : f = t
  · subst hft
    have hfind1 := findAccount_setBalanceFirst_self accs f (round2 (fa.balance - a)) fa hf
    rw [applyTransfer_eq hfind1]
    rw [totalBalance_setBalanceFirst _ f _ _ hfind1,
      totalBalance_setBalanceFirst _ f _ _ hf]
    have hx : ({ fa with balance := round2 (fa.balance - a) } : Account).balance
        = fa.balance - a := hsub
    rw [hx]
    have h2 : round2 (fa.balance - a + a) = fa.balance := by
      have h3 : fa.balance - a + a = fa.balance := by ring
      rw [h3, hfa_c.round2_eq]
    rw [h2, hsub]
    ring
  · have hfind1 : findAccount (setBalanceFirst accs f (round2 (fa.balance - a))) t
        = some ta :=
      (findAccount_setBalanceFirst_ne accs f t _ hft).trans ht
    rw [applyTransfer_eq hfind1]
    rw [totalBalance_setBalanceFirst _ t _ _ hfind1,
      totalBalance_setBalanceFirst _ f _ _ hf]
    rw [hsub, (hta_c.add ha).round2_eq]
    ring

/-- C1.  The claim as stated is false (see `C1_counterexample`: the
validation checks also accept amounts that are not whole cents, and
2-decimal rounding then creates or destroys money).  Amended version:
whenever every ledger balance and the transferred amount are whole-cent
values, every successful `transferFunds` call preserves the total of all
balances. -/
theorem C1_conservation_cents (s : ApiState) (now : ℕ) (f t : String) (a : ℚ)
    (hc : ∀ acc ∈ s.accounts, IsCents acc.balance) (ha : IsCents a)
    (hok : (transferFunds s now f t a).1.isOk = true) :
    totalBalance ((transferFunds s now f t a).2.accounts)
      = totalBalance s.accounts := by
  by_cases hrl : (checkRateLimit s now).1 = true
  case neg =>
    rw [transferFunds_of_rejected s now f t a (by simpa using hrl)] at hok
    simp [Except.isOk, Except.toBool] at hok
  case pos =>
    cases hfo : findAccount s.accounts f with
    | none =>
        rw [transferFunds_of_notFound s now f t a hrl (.inl hfo)] at hok
        simp [Except.isOk, Except.toBool] at hok
    | some fa =>
        cases hto : findAccount s.accounts t with
        | none =>
            rw [transferFunds_of_notFound s now f t a hrl (.inr hto)] at hok
            simp [Except.isOk, Except.toBool] at hok
        | some ta =>
            by_cases hlt : fa.balance < a
            · rw [transferFunds_of_insufficient s now f t a fa ta hrl hfo hto hlt] at hok
              simp [Except.isOk, Except.toBool] at hok
            · rw [transferFunds_of_success s now f t a fa ta hrl hfo hto hlt]
              exact totalBalance_applyTransfer s.accounts fa ta f t a hfo hto hc ha

/-- C1 witness: a whole-cent transfer of $100 between the two seeded
accounts preserves the ledger total. -/
theorem C1_conservation_cents_witness :
    totalBalance ((transferFunds initialState 0 "acc-1" "acc-2" 100).2.accounts)
      = totalBalance initialState.accounts := by
  apply C1_conservation_cents
  · intro acc hacc
    rcases (by simpa [initialState, mockAccounts] using hacc :
        acc = checkingAccount ∨ acc = savingsAccount) with h | h
    · exact h ▸ ⟨524575, by norm_num [checkingAccount]⟩
    · exact h ▸ ⟨1273540, by norm_num [savingsAccount]⟩
  · exact ⟨10000, by norm_num⟩
  · rw [transferFunds_of_success initialState 0 "acc-1" "acc-2" 100
      checkingAccount savingsAccount rfl rfl rfl
      (by norm_num [checkingAccount])]
    rfl

/-- C1 counterexample: a transfer of half a cent ($0.005) passes every
validation check in the source, yet after the 2-decimal rounding of the
two balance updates the ledger total changes (here it grows by one cent:
5245.745 rounds up to 5245.75 and 12735.405 rounds up to 12735.41). -/
theorem C1_counterexample :
    (transferFunds initialState 0 "acc-1" "acc-2" (1 / 200)).1.isOk = true ∧
    totalBalance ((transferFunds initialState 0 "acc-1" "acc-2" (1 / 200)).2.accounts)
      ≠ totalBalance initialState.accounts := by
  rw [transferFunds_of_success initialState 0 "acc-1" "acc-2" (1 / 200)
    checkingAccount savingsAccount rfl rfl rfl
    (by norm_num [checkingAccount])]
  refine ⟨rfl, ?_⟩
  rw [applyTransfer_eq (x := savingsAccount)
    (show findAccount
        (setBalanceFirst initialState.accounts "acc-1"
          (round2 (checkingAccount.balance - 1 / 200))) "acc-2"
      = some savingsAccount from rfl)]
  show totalBalance
      [ { checkingAccount with balance := round2 (checkingAccount.balance - 1 / 200) },
        { savingsAccount with balance := round2 (savingsAccount.balance + 1 / 200) } ]
    ≠ totalBalance initialState.accounts
  norm_num [totalBalance, round2, round_eq, checkingAccount, savingsAccount,
    initialState, mockAccounts]

/-! ## Transfer validation (C2) -/

/-- C2.  The claim as stated is false: `transferFunds` has neither a
same-account check nor a positive-amount check (see `C2_counterexample`).
Amended: when the rate limiter admits the call, the transfer fails with
`NotFound` when either account id is absent; otherwise it fails with
`InsufficientFunds` when `fromAccount.balance < amount`; otherwise it
succeeds — also when `fromId == toId` or `amount <= 0`. -/
theorem C2_transfer_validation (s : ApiState) (now : ℕ) (f t : String) (a : ℚ)
    (hrl : (checkRateLimit s now).1 = true) :
    ((findAccount s.accounts f = none ∨ findAccount s.accounts t = none) →
        (transferFunds s now f t a).1 = .error .NotFound)
    ∧ (∀ fa ta, findAccount s.accounts f = some fa →
        findAccount s.accounts t = some ta →
        fa.balance < a → (transferFunds s now f t a).1 = .error .InsufficientFunds)
    ∧ (∀ fa ta, findAccount s.accounts f = some fa →
        findAccount s.accounts t = some ta →
        ¬ fa.balance < a → (transferFunds s now f t a).1.isOk = true) := by
  refine ⟨?_, ?_, ?_⟩
  · intro h
    rw [transferFunds_of_notFound s now f t a hrl h]
  · intro fa ta hf ht hlt
    rw [transferFunds_of_insufficient s now f t a fa ta hrl hf ht hlt]
  · intro fa ta hf ht hge
    rw [transferFunds_of_success s now f t a fa ta hrl hf ht hge]
    rfl

/-- C2 witness: a transfer of $50 between the two seeded accounts passes
all validation and succeeds. -/
theorem C2_transfer_validation_witness :
    (transferFunds initialState 0 "acc-1" "acc-2" 50).1.isOk = true :=
  (C2_transfer_validation initialState 0 "acc-1" "acc-2" 50 rfl).2.2
    checkingAccount savingsAccount rfl rfl (by norm_num [checkingAccount])

/-- C2 counterexample: a transfer with `fromId == toId` (both `"acc-1"`)
succeeds, where the claim says it must fail with `SameAccount`; there is
no such check in the source. -/
theorem C2_counterexample :
    (transferFunds initialState 0 "acc-1" "acc-1" 10).1.isOk = true := by
  rw [transferFunds_of_success initialState 0 "acc-1" "acc-1" 10
    checkingAccount checkingAccount rfl rfl rfl (by norm_num [checkingAccount])]
  rfl

/-! ## Non-negativity (C3) -/

theorem balances_nonneg_setBalanceFirst {accs : List Account} {accountId : String}
    {b : ℚ} (hnn : ∀ y ∈ accs, 0 ≤ y.balance) (hb : 0 ≤ b) :
    ∀ x ∈ setBalanceFirst accs accountId b, 0 ≤ x.balance := by
  intro x hx
  rcases mem_setBalanceFirst hx with h | ⟨y, _, rfl⟩
  · exact hnn x h
  · simpa using hb

theorem applyTransfer_eq_none {accs : List Account} {fa ta : Account} {f t : String}
    {a : ℚ}
    (hx : findAccount (setBalanceFirst accs f (round2 (fa.balance - a))) t = none) :
    applyTransfer accs fa ta f t a
      = setBalanceFirst (setBalanceFirst accs f (round2 (fa.balance - a))) t
          (round2 (ta.balance + a)) := by
  simp only [applyTransfer, hx]

theorem applyTransfer_nonneg (accs : List Account) (fa ta : Account)
    (f t : String) (a : ℚ)
    (_hf : findAccount accs f = some fa) (ht : findAccount accs t = some ta)
    (ha : 0 ≤ a) (hge : ¬ fa.balance < a)
    (hnn : ∀ acc ∈ accs, 0 ≤ acc.balance) :
    ∀ x ∈ applyTransfer accs fa ta f t a, 0 ≤ x.balance := by
  have h1 : 0 ≤ round2 (fa.balance - a) := by
    apply round2_nonneg
    have := not_lt.mp hge
    linarith
  have hstep1 : ∀ x ∈ setBalanceFirst accs f (round2 (fa.balance - a)), 0 ≤ x.balance :=
    balances_nonneg_setBalanceFirst hnn h1
  cases hxf : findAccount (setBalanceFirst accs f (round2 (fa.balance - a))) t with
  | none =>
      rw [applyTransfer_eq_none hxf]
      apply balances_nonneg_setBalanceFirst hstep1
      apply round2_nonneg
      have hta := hnn ta (findAccount_mem ht)
      linarith
  | some x =>
      rw [applyTransfer_eq hxf]
      apply balances_nonneg_setBalanceFirst hstep1
      apply round2_nonneg
      have hxb := hstep1 x (findAccount_mem hxf)
      linarith

theorem transferFunds_preserves_nonneg (s : ApiState) (now : ℕ) (f t : String)
    (a : ℚ) (ha : 0 ≤ a) (hnn : ∀ acc ∈ s.accounts, 0 ≤ acc.balance) :
    ∀ acc ∈ (transferFunds s now f t a).2.accounts, 0 ≤ acc.balance := by
  by_cases hrl : (checkRateLimit s now).1 = true
  case neg =>
    rw [transferFunds_of_rejected s now f t a (by simpa using hrl)]
    exact hnn
  case pos =>
    cases hfo : findAccount s.accounts f with
    | none =>
        rw [transferFunds_of_notFound s now f t a hrl (.inl hfo)]
        exact hnn
    | some fa =>
        cases hto : findAccount s.accounts t with
        | none =>
            rw [transferFunds_of_notFound s now f t a hrl (.inr hto)]
            exact hnn
        | some ta =>
            by_cases hlt : fa.balance < a
            · rw [transferFunds_of_insufficient s now f t a fa ta hrl hfo hto hlt]
              exact hnn
            · rw [transferFunds_of_success s now f t a fa ta hrl hfo hto hlt]
              exact applyTransfer_nonneg s.accounts fa ta f t a hfo hto ha hlt hnn

theorem runTransfers_nonneg (calls : List (ℕ × String × String × ℚ)) (s : ApiState)
    (hnn : ∀ acc ∈ s.accounts, 0 ≤ acc.balance)
    (hpos : ∀ c ∈ calls, 0 ≤ c.2.2.2) :
    ∀ acc ∈ (runTransfers s calls).accounts, 0 ≤ acc.balance := by
  induction calls generalizing s with
  | nil => exact hnn
  | cons c cs ih =>
      exact ih _
        (transferFunds_preserves_nonneg s c.1 c.2.1 c.2.2.1 c.2.2.2
          (hpos c (List.mem_cons_self ..)) hnn)
        (fun d hd => hpos d (List.mem_cons_of_mem _ hd))

/-- C3.  The claim as stated is false: with a negative amount the
validation passes and the credited account can go negative (see
`C3_counterexample`).  Amended: for every sequence of transfer calls with
NONNEGATIVE amounts, starting from the seeded ledger, no balance is
negative after any prefix of the sequence. -/
theorem C3_nonneg (calls : List (ℕ × String × String × ℚ))
    (hpos : ∀ c ∈ calls, 0 ≤ c.2.2.2) :
    ∀ n : ℕ, ∀ acc ∈ (runTransfers initialState (calls.take n)).accounts,
      0 ≤ acc.balance := by
  intro n
  apply runTransfers_nonneg
  · intro acc hacc
    rcases (by simpa [initialState, mockAccounts] using hacc :
        acc = checkingAccount ∨ acc = savingsAccount) with h | h
    · rw [h]; norm_num [checkingAccount]
    · rw [h]; norm_num [savingsAccount]
  · exact fun c hc => hpos c (List.take_subset n calls hc)

/-- C3 witness: after the single seeded-ledger transfer of $100 every
balance is still nonnegative. -/
theorem C3_nonneg_witness :
    ((runTransfers initialState [(0, "acc-1", "acc-2", 100)]).accounts.all
      (fun acc => decide (0 ≤ acc.balance))) = true := by
  rw [List.all_eq_true]
  intro x hx
  rw [decide_eq_true_eq]
  refine C3_nonneg [(0, "acc-1", "acc-2", 100)] ?_ 1 x hx
  intro c hc
  rcases (by simpa using hc : c = (0, "acc-1", "acc-2", (100 : ℚ))) with rfl
  norm_num

/-- C3 counterexample: a single transfer of −20000 from the seeded ledger
is accepted by the validation (−20000 ≤ 5245.75) and drives the savings
account to −7264.60. -/
theorem C3_counterexample :
    (transferFunds initialState 0 "acc-1" "acc-2" (-20000)).1.isOk = true ∧
    ((runTransfers initialState [(0, "acc-1", "acc-2", -20000)]).accounts.any
      (fun acc => decide (acc.balance < 0))) = true := by
  have hsucc := transferFunds_of_success initialState 0 "acc-1" "acc-2" (-20000)
    checkingAccount savingsAccount rfl rfl rfl (by norm_num [checkingAccount])
  constructor
  · rw [hsucc]
    rfl
  · show ((transferFunds initialState 0 "acc-1" "acc-2" (-20000)).2.accounts.any
      (fun acc => decide (acc.balance < 0))) = true
    rw [hsucc]
    show ((applyTransfer initialState.accounts checkingAccount savingsAccount
        "acc-1" "acc-2" (-20000)).any (fun acc => decide (acc.balance < 0))) = true
    rw [applyTransfer_eq (x := savingsAccount)
      (show findAccount
          (setBalanceFirst initialState.accounts "acc-1"
            (round2 (checkingAccount.balance - (-20000)))) "acc-2"
        = some savingsAccount from rfl)]
    show (([ { checkingAccount with
                balance := round2 (checkingAccount.balance - (-20000)) },
            { savingsAccount with
                balance := round2 (savingsAccount.balance + (-20000)) } ] :
          List Account).any
        (fun acc => decide (acc.balance < 0))) = true
    norm_num [List.any_cons, List.any_nil, round2, round_eq,
      checkingAccount, savingsAccount]

/-! ## Rate-limit window behaviour (C4) -/

/-- C4.  The claim's reset rule is false on the code: the counter resets
only when more than 60 s have passed since the PREVIOUS REQUEST
(`lastRequestTime`), not since the window's last reset (see
`C4_counterexample`).  Amended, with windows delimited by idle gaps over
60 s: (i) within a run whose consecutive gaps stay ≤ 60 s, started with a
fresh counter, the k-th call (0-based) is admitted iff `k + 1 ≤ 10` — the
first 10 are admitted, the 11th is rejected; (ii) a call arriving more
than 60 s after the previous request resets the window and is admitted. -/
theorem C4_window_behaviour :
    (∀ (prev r : ℕ) (ts : List ℕ) (k : ℕ),
      gapsLE 60000 prev ts = true → k < ts.length →
      (rlRun ⟨0, prev, r⟩ ts)[k]? = some (decide (k + 1 ≤ 10)))
    ∧ (∀ (s : RateState) (now : ℕ), 60000 < now - s.lastRequestTime →
      (rlStep s now).1 = true) := by
  constructor
  · intro prev r ts k hgaps hk
    rw [rlRun_of_gapsLE 0 prev r ts hgaps]
    rw [List.getElem?_map, List.getElem?_range hk]
    simp
  · intro s now h
    rw [rlStep_of_reset s now h]

/-- C4 witness: with eleven back-to-back calls the 11th (index 10) is
rejected. -/
theorem C4_window_behaviour_witness :
    (rlRun ⟨0, 0, 0⟩ [0, 0, 0, 0, 0, 0, 0, 0, 0, 0, 0])[10]? = some false := by
  have h := C4_window_behaviour.1 0 0 [0, 0, 0, 0, 0, 0, 0, 0, 0, 0, 0] 10
    (by decide) (by decide)
  simpa using h

/-- C4 counterexample: eleven calls spaced 50 s apart.  Under the source's
rule (reset only after a gap of more than 60 s since the previous request)
the counter never resets and the 11th call is rejected; under the claim's
rule (reset whenever more than 60 s have elapsed since the window's last
reset, before counting) the window would have been reset repeatedly and
every call would be admitted, as `specRlRun` shows. -/
theorem C4_counterexample :
    rlRun ⟨0, 0, 0⟩ [0, 50000, 100000, 150000, 200000, 250000, 300000,
        350000, 400000, 450000, 500000]
      = [true, true, true, true, true, true, true, true, true, true, false]
    ∧ specRlRun ⟨0, 0⟩ [0, 50000, 100000, 150000, 200000, 250000, 300000,
        350000, 400000, 450000, 500000]
      = [true, true, true, true, true, true, true, true, true, true, true] :=
  ⟨by decide, by decide⟩

/-! ## Pagination (C5) -/

/-- C5.  For every `page ≥ 1`, `pageSize ≥ 1`, an admitted
`getTransactions` call returns `total` = length of the log and `data` =
the slice of the log from `(page-1)*pageSize` of length at most
`pageSize`; the returned length is `min pageSize (total - start)`
(truncated subtraction = `max 0`), and an out-of-range page yields empty
`data` with the same correct `total`. -/
theorem C5_pagination (s : ApiState) (now : ℕ) (page pageSize : ℕ)
    (_hpage : 1 ≤ page) (_hsize : 1 ≤ pageSize)
    (hrl : (checkRateLimit s now).1 = true) :
    (getTransactions s now page pageSize).1
      = .ok ((s.transactions.drop ((page - 1) * pageSize)).take pageSize,
          s.transactions.length)
    ∧ ((s.transactions.drop ((page - 1) * pageSize)).take pageSize).length
      = min pageSize (s.transactions.length - (page - 1) * pageSize)
    ∧ (s.transactions.length ≤ (page - 1) * pageSize →
        (s.transactions.drop ((page - 1) * pageSize)).take pageSize = []) := by
  refine ⟨?_, ?_, ?_⟩
  · simp only [getTransactions, hrl, if_true, checkRateLimit_transactions]
  · simp [List.length_take, List.length_drop]
  · intro h
    rw [List.drop_eq_nil_of_le h, List.take_nil]

/-- C5 witness: on a two-entry log, page 2 with page size 1 returns
exactly the second entry and total 2. -/
theorem C5_pagination_witness :
    (getTransactions
      { rate := ⟨0, 0, 0⟩, accounts := mockAccounts,
        transactions :=
          [ { id := "t-1", date := 1, type := .debit, amount := 1,
              description := "d1", status := .completed, category := "c" },
            { id := "t-2", date := 0, type := .credit, amount := 1,
              description := "d2", status := .completed, category := "c" } ] }
      0 2 1).1
    = .ok ([ { id := "t-2", date := 0, type := .credit, amount := 1,
               description := "d2", status := .completed, category := "c" } ], 2) := by
  have h := (C5_pagination
    { rate := ⟨0, 0, 0⟩, accounts := mockAccounts,
      transactions :=
        [ { id := "t-1", date := 1, type := .debit, amount := 1,
            description := "d1", status := .completed, category := "c" },
          { id := "t-2", date := 0, type := .credit, amount := 1,
            description := "d2", status := .completed, category := "c" } ] }
    0 2 1 (by norm_num) (by norm_num) rfl).1
  rw [h]
  rfl

/-! ## Transfer pairing (C6) -/

theorem transferFunds_ok_elim {s : ApiState} {now : ℕ} {f t : String} {a : ℚ}
    (hok : (transferFunds s now f t a).1.isOk = true) :
    ∃ fa ta, (checkRateLimit s now).1 = true
      ∧ findAccount s.accounts f = some fa
      ∧ findAccount s.accounts t = some ta
      ∧ ¬ fa.balance < a := by
  by_cases hrl : (checkRateLimit s now).1 = true
  case neg =>
    rw [transferFunds_of_rejected s now f t a (by simpa using hrl)] at hok
    simp [Except.isOk, Except.toBool] at hok
  case pos =>
    cases hfo : findAccount s.accounts f with
    | none =>
        rw [transferFunds_of_notFound s now f t a hrl (.inl hfo)] at hok
        simp [Except.isOk, Except.toBool] at hok
    | some fa =>
        cases hto : findAccount s.accounts t with
        | none =>
            rw [transferFunds_of_notFound s now f t a hrl (.inr hto)] at hok
            simp [Except.isOk, Except.toBool] at hok
        | some ta =>
            by_cases hlt : fa.balance < a
            · rw [transferFunds_of_insufficient s now f t a fa ta hrl hfo hto hlt] at hok
              simp [Except.isOk, Except.toBool] at hok
            · exact ⟨fa, ta, hrl, rfl, rfl, hlt⟩

/-- C6.  Every successful transfer prepends exactly two records to the
log (the credit leg first, from the second `unshift`): a debit leg and a
credit leg with the same amount, opposite types, the same timestamp, and
ids `tx-<now>-debit` / `tx-<now>-credit` sharing the correlation id
`tx-<now>`; the log grows by exactly these 2 entries. -/
theorem C6_pairing (s : ApiState) (now : ℕ) (f t : String) (a : ℚ)
    (hok : (transferFunds s now f t a).1.isOk = true) :
    ∃ d c : Transaction,
      (transferFunds s now f t a).2.transactions = c :: d :: s.transactions
      ∧ d.type = .debit ∧ c.type = .credit
      ∧ d.amount = a ∧ c.amount = a
      ∧ d.date = now ∧ c.date = now
      ∧ d.id = "tx-" ++ toString now ++ "-debit"
      ∧ c.id = "tx-" ++ toString now ++ "-credit"
      ∧ (transferFunds s now f t a).2.transactions.length
          = s.transactions.length + 2 := by
  obtain ⟨fa, ta, hrl, hf, ht, hge⟩ := transferFunds_ok_elim hok
  rw [transferFunds_of_success s now f t a fa ta hrl hf ht hge]
  exact ⟨debitRecord now ta a, creditRecord now fa a,
    rfl, rfl, rfl, rfl, rfl, rfl, rfl, rfl, rfl, rfl⟩

/-- C6 witness: after the seeded $100 transfer the log has grown by
exactly two entries. -/
theorem C6_pairing_witness :
    (transferFunds initialState 0 "acc-1" "acc-2" 100).2.transactions.length
      = initialState.transactions.length + 2 := by
  have hok : (transferFunds initialState 0 "acc-1" "acc-2" 100).1.isOk = true := by
    rw [transferFunds_of_success initialState 0 "acc-1" "acc-2" 100
      checkingAccount savingsAccount rfl rfl rfl (by norm_num [checkingAccount])]
    rfl
  obtain ⟨d, c, _, _, _, _, _, _, _, _, _, hlen⟩ :=
    C6_pairing initialState 0 "acc-1" "acc-2" 100 hok
  exact hlen

/-! ## Invoice generation ignores the date range (C7) -/

/-- C7.  The claim is false: `generateInvoice` never validates the range
and there is no `InvalidRange` failure anywhere in the source (see
`C7_counterexample`).  Amended: the two date arguments are ignored
entirely — the result does not depend on them — and whenever the rate
limiter admits the call the method returns an invoice, for every pair of
dates, in or out of order. -/
theorem C7_no_range_validation (s : ApiState) (now : ℕ)
    (sd1 ed1 sd2 ed2 : String) (r1 r3 r4 : ℕ)
    (hrl : (checkRateLimit s now).1 = true) :
    apiGenerateInvoice s now sd1 ed1 r1 r3 r4
      = apiGenerateInvoice s now sd2 ed2 r1 r3 r4
    ∧ (apiGenerateInvoice s now sd1 ed1 r1 r3 r4).1
      = .ok (generateInvoice sd1 ed1 now r1 r3 r4) := by
  constructor
  · rfl
  · simp only [apiGenerateInvoice, hrl, if_true]

/-- C7 witness: a concrete admitted call returns an invoice. -/
theorem C7_no_range_validation_witness :
    (apiGenerateInvoice initialState 0 "2020-01-01" "2020-02-01" 5 7 9).1
      = .ok (generateInvoice "2020-01-01" "2020-02-01" 0 5 7 9) :=
  (C7_no_range_validation initialState 0 "2020-01-01" "2020-02-01"
    "x" "y" 5 7 9 rfl).2

/-- C7 counterexample: with `startDate = "2024-12-31"` strictly greater
than `endDate = "2024-01-01"`, `generateInvoice` succeeds instead of
failing with `InvalidRange`. -/
theorem C7_counterexample :
    ("2024-01-01" : String) < "2024-12-31"
    ∧ (apiGenerateInvoice initialState 0 "2024-12-31" "2024-01-01" 0 0 0).1.isOk
      = true := by
  constructor
  · rw [String.lt_iff_toList_lt]
    decide
  · rfl

/-! ## All-or-nothing failure (C8) -/

/-- C8.  Every failing `transferFunds` call — rate-limited, account not
found, or insufficient funds — leaves both the account ledger and the
transaction log exactly as they were. -/
theorem C8_failure_no_mutation (s : ApiState) (now : ℕ) (f t : String) (a : ℚ)
    (hfail : (transferFunds s now f t a).1.isOk = false) :
    (transferFunds s now f t a).2.accounts = s.accounts
    ∧ (transferFunds s now f t a).2.transactions = s.transactions := by
  by_cases hrl : (checkRateLimit s now).1 = true
  case neg =>
    rw [transferFunds_of_rejected s now f t a (by simpa using hrl)]
    exact ⟨rfl, rfl⟩
  case pos =>
    cases hfo : findAccount s.accounts f with
    | none =>
        rw [transferFunds_of_notFound s now f t a hrl (.inl hfo)]
        exact ⟨rfl, rfl⟩
    | some fa =>
        cases hto : findAccount s.accounts t with
        | none =>
            rw [transferFunds_of_notFound s now f t a hrl (.inr hto)]
            exact ⟨rfl, rfl⟩
        | some ta =>
            by_cases hlt : fa.balance < a
            · rw [transferFunds_of_insufficient s now f t a fa ta hrl hfo hto hlt]
              exact ⟨rfl, rfl⟩
            · rw [transferFunds_of_success s now f t a fa ta hrl hfo hto hlt] at hfail
              simp [Except.isOk, Except.toBool] at hfail

/-- C8 witness: the spec scenario — a $10000 transfer from the checking
account (balance 5245.75) fails with `InsufficientFunds` and mutates
neither the ledger nor the log. -/
theorem C8_failure_no_mutation_witness :
    (transferFunds initialState 0 "acc-1" "acc-2" 10000).1
      = .error .InsufficientFunds
    ∧ (transferFunds initialState 0 "acc-1" "acc-2" 10000).2.accounts
      = initialState.accounts
    ∧ (transferFunds initialState 0 "acc-1" "acc-2" 10000).2.transactions
      = initialState.transactions := by
  have herr := transferFunds_of_insufficient initialState 0 "acc-1" "acc-2" 10000
    checkingAccount savingsAccount rfl rfl rfl (by norm_num [checkingAccount])
  have hfail : (transferFunds initialState 0 "acc-1" "acc-2" 10000).1.isOk = false := by
    rw [herr]
    rfl
  obtain ⟨h1, h2⟩ := C8_failure_no_mutation initialState 0 "acc-1" "acc-2" 10000 hfail
  refine ⟨?_, h1, h2⟩
  rw [herr]

/-! ## Session round-trip (C9) -/

/-- C9.  Every successful `login` writes the token and the serialized
user to the Session Store; re-initializing from the store (`checkAuth`,
the restart simulation) then yields `checkToken = true` and restores
exactly the `User` that was set at login. -/
theorem C9_session_roundtrip (st0 : Store) (email password : String)
    (hok : (login st0 email password).isOk = true) :
    ∃ u st1, login st0 email password = .ok (u, st1)
      ∧ checkToken st1 = true ∧ checkAuth st1 = some u := by
  cases hfind : MOCK_USERS.find?
      (fun u => u.email == email && u.password == password) with
  | none =>
      rw [show login st0 email password = .error .InvalidCredentials from by
        simp only [login, hfind]] at hok
      simp [Except.isOk, Except.toBool] at hok
  | some m =>
      refine ⟨m.toUser, { token := some (mkToken m), user := some m.toUser },
        ?_, rfl, rfl⟩
      simp only [login, hfind]

/-- C9 witness: the demo user logs in and round-trips through the store. -/
theorem C9_session_roundtrip_witness :
    ∃ u st1, login ⟨none, none⟩ "demo@example.com" "password" = .ok (u, st1)
      ∧ checkToken st1 = true ∧ checkAuth st1 = some u :=
  C9_session_roundtrip ⟨none, none⟩ "demo@example.com" "password" rfl

/-! ## The limiter never recovers under steady retrying (C10) -/

theorem rlRun_rejected_propagates (ts : List ℕ) (s : RateState)
    (hg : gapsLT 60000 s.lastRequestTime ts = true) :
    ∀ i j, i ≤ j → j < ts.length →
      (rlRun s ts)[i]? = some false → (rlRun s ts)[j]? = some false := by
  induction ts generalizing s with
  | nil => intro i j _ hj _; simp at hj
  | cons t ts ih =>
      rw [gapsLT, Bool.and_eq_true, decide_eq_true_eq] at hg
      obtain ⟨h1, h2⟩ := hg
      rw [rlRun_cons, rlStep_of_no_reset s t (by omega)]
      intro i j hij hj hfalse
      match i, j with
      | 0, 0 => exact hfalse
      | 0, j + 1 =>
          simp only [List.getElem?_cons_zero, Option.some_inj,
            decide_eq_false_iff_not] at hfalse
          simp only [List.getElem?_cons_succ]
          exact rlRun_all_false ts _ (by simp; omega) h2 j (by simpa using hj)
      | i + 1, j + 1 =>
          simp only [List.getElem?_cons_succ] at hfalse ⊢
          exact ih _ h2 i j (by omega) (by simpa using hj) hfalse

/-- C10.  (i) Every call — admitted or rejected — sets `lastRequestTime`
to the current time and increments `requestCount` (from 0 when the idle
gap exceeded 60 s, from its previous value otherwise).  (ii) Hence in a
sequence of calls whose consecutive gaps are all under 60 s, once one call
is rejected every later call in the sequence is rejected too: the limiter
never recovers under steady retrying. -/
theorem C10_no_recovery :
    (∀ (s : RateState) (now : ℕ),
        (rlStep s now).2.lastRequestTime = now
        ∧ (rlStep s now).2.requestCount
            = (if 60000 < now - s.lastRequestTime then 0 else s.requestCount) + 1)
    ∧ (∀ (s : RateState) (ts : List ℕ) (i j : ℕ),
        gapsLT 60000 s.lastRequestTime ts = true → i ≤ j → j < ts.length →
        (rlRun s ts)[i]? = some false → (rlRun s ts)[j]? = some false) := by
  constructor
  · intro s now
    by_cases h : 60000 < now - s.lastRequestTime
    · rw [rlStep_of_reset s now h]
      simp [h]
    · rw [rlStep_of_no_reset s now h]
      simp [h]
  · intro s ts i j hg hij hj hfalse
    exact rlRun_rejected_propagates ts s hg i j hij hj hfalse

/-- C10 witness: from a saturated limiter, with calls 1 ms apart, a
rejection at index 0 forces a rejection at index 1. -/
theorem C10_no_recovery_witness :
    (rlRun ⟨10, 0, 0⟩ [1, 2])[1]? = some false :=
  C10_no_recovery.2 ⟨10, 0, 0⟩ [1, 2] 0 1 (by decide) (by omega) (by decide)
    (by decide)

end Fintech
